import Mathlib

/-
Verification of the MetroGame train-line editor's data model.

The repository has two near-duplicate implementations of the DEM-backed
station/line editor: `gui.py` (name-keyed lines, tables are authoritative)
and `mountain.py` (id-keyed stations and lines, dictionaries are
authoritative).  Both are embedded below; shared helpers (colors, the
nearest-sample elevation lookup, the land/sea partition) come first.

Machine reals are modelled as rationals, Python dictionaries as
insertion-ordered association lists, and Python exceptions as `Except`
or `Option` results.
-/

namespace MetroGame

/-! ## Colors (`gui.py`, `rgb_to_hex` / `hex_to_rgb`) -/

/-- Python `int()` truncates toward zero. -/
def pyIntTrunc (q : ℚ) : ℤ :=
  if q < 0 then -(⌊-q⌋) else ⌊q⌋

/-- The uppercase hexadecimal digit for `n < 16`, as produced by the
Python format specifier `X`. -/
def hexDigitChar (n : Nat) : Char :=
  if n < 10 then Char.ofNat (48 + n) else Char.ofNat (55 + n)

/-- Rendering of `f"{n:02X}"` for `n < 256`: exactly two uppercase hex
digits (the call sites only format channel values in `0..255`). -/
def toHex2 (n : Nat) : List Char :=
  [hexDigitChar (n / 16), hexDigitChar (n % 16)]

/-- `gui.rgb_to_hex`: `f"#{int(r*255):02X}{int(g*255):02X}{int(b*255):02X}"`. -/
def rgb_to_hex (c : ℚ × ℚ × ℚ) : String :=
  String.mk ('#' :: toHex2 (pyIntTrunc (c.1 * 255)).toNat
    ++ toHex2 (pyIntTrunc (c.2.1 * 255)).toNat
    ++ toHex2 (pyIntTrunc (c.2.2 * 255)).toNat)

/-- Value of one hexadecimal digit as accepted by Python `int(s, 16)`
(upper- or lowercase). -/
def hexVal (c : Char) : Option Nat :=
  if '0' ≤ c ∧ c ≤ '9' then some (c.toNat - 48)
  else if 'A' ≤ c ∧ c ≤ 'F' then some (c.toNat - 55)
  else if 'a' ≤ c ∧ c ≤ 'f' then some (c.toNat - 87)
  else none

/-- Python `int(s, 16)` on a two-character digit string. -/
def parseHex2 (a b : Char) : Option Nat :=
  match hexVal a, hexVal b with
  | some hi, some lo => some (16 * hi + lo)
  | _, _ => none

/-- Python `str.lstrip('#')`: drop every leading `'#'`. -/
def lstripHash (s : List Char) : List Char :=
  s.dropWhile (fun c => c = '#')

/-- `gui.hex_to_rgb`.  After stripping leading `'#'`, a string whose
length is not 6 yields the default color `[0, 1, 0]`; six hex digits are
parsed as three channels divided by 255; six characters that are not all
hex digits make Python's `int(_, 16)` raise `ValueError`, modelled as
`Except.error`. -/
def hex_to_rgb (s : String) : Except Unit (ℚ × ℚ × ℚ) :=
  match lstripHash s.data with
  | [a, b, c, d, e, f] =>
    match parseHex2 a b, parseHex2 c d, parseHex2 e f with
    | some r, some g, some bl => .ok ((r : ℚ) / 255, (g : ℚ) / 255, (bl : ℚ) / 255)
    | _, _, _ => .error ()
  | _ => .ok (0, 1, 0)

/-- The serialized color shape required by the persistence format: a
`'#'` followed by exactly six uppercase hexadecimal digits. -/
def isUpperHexColor (s : String) : Bool :=
  match s.data with
  | '#' :: rest => rest.length == 6 && rest.all (fun c => c.isDigit || ('A' ≤ c && c ≤ 'F'))
  | _ => false

/-! ## Python string helpers

`str.strip()` and `str.split(",")` are modelled directly on character
lists (ASCII scope: Python's notion of whitespace and of digits extends
to further Unicode classes that never occur in this program). -/

/-- Python `str.strip()`: drop leading and trailing whitespace. -/
def pyStripChars (cs : List Char) : List Char :=
  ((cs.dropWhile Char.isWhitespace).reverse.dropWhile Char.isWhitespace).reverse

/-- `str.strip()` on a string value. -/
def pyStrip (s : String) : String :=
  String.mk (pyStripChars s.data)

/-- Python `str.split(",")`: split at every comma, keeping empty
pieces; the result is never empty (`"".split(",") == [""]`). -/
def pySplitComma : List Char → List (List Char)
  | [] => [[]]
  | c :: rest =>
    if c = ',' then [] :: pySplitComma rest
    else
      match pySplitComma rest with
      | [] => [[c]]
      | g :: gs => (c :: g) :: gs

/-! ## Elevation grid (`gui.get_elevation`, `mountain.get_elevation`) -/

/-- Distance of a sample value `v` from the query coordinate `x`,
as computed by `np.abs(coords - x)`. -/
def absDist (x v : ℚ) : ℚ := |v - x|

/-- `np.abs(xs - x).argmin()`: the index of the first occurrence of the
minimal value of `|xs[i] - x|` (numpy's `argmin` returns the first
occurrence of the minimum; an empty array is an error in numpy, and the
index 0 returned here for `[]` is never used by the callers). -/
def argminAbs (x : ℚ) : List ℚ → Nat
  | [] => 0
  | v :: rest =>
    if rest.isEmpty then 0
    else
      let r := argminAbs x rest
      if absDist x v ≤ absDist x (rest.getD r 0) then 0 else r + 1

/-- `self.dem_data[i, j]` on a row-major grid. -/
def gridAt (dem : List (List ℚ)) (i j : Nat) : ℚ :=
  (dem.getD i []).getD j 0

/-- The shared nearest-sample lookup
`dem_data[np.abs(x_coords - x).argmin(), np.abs(y_coords - y).argmin()]`
(`mountain.TrainLineUI.get_elevation` is exactly this). -/
def nearestLookup (xs ys : List ℚ) (dem : List (List ℚ)) (x y : ℚ) : ℚ :=
  gridAt dem (argminAbs x xs) (argminAbs y ys)

/-- `gui.TrainLineUI.get_elevation`: returns 0 when no DEM is loaded,
otherwise the nearest-sample lookup. -/
def get_elevation (dem : Option (List (List ℚ))) (xs ys : List ℚ) (x y : ℚ) : ℚ :=
  match dem with
  | none => 0
  | some d => nearestLookup xs ys d x y

/-! ## Land/sea partition (`dem_utils.plot_dem_in_pyvista`) -/

/-- Whether a sample with scalar value `v` is kept by
`grid.threshold(value, invert=...)`.  Models the pyvista/VTK threshold
filter at sample level: in the default "upper" regime a sample is kept
when its scalar is greater than or equal to the value, and `invert=True`
keeps exactly the complementary samples. -/
def thresholdKeep (invert : Bool) (value v : ℚ) : Bool :=
  if invert then decide (v < value) else decide (value ≤ v)

/-- All grid samples with their index pairs, in row-major order. -/
def enumGrid (data : List (List ℚ)) : List ((Nat × Nat) × ℚ) :=
  data.enum.flatMap (fun p => p.2.enum.map (fun q => ((p.1, q.1), q.2)))

/-- `dem_utils.plot_dem_in_pyvista`, restricted to its partition of the
samples: `land = grid.threshold(0.01, invert=False)` keeps its sample
values, `sea = grid.threshold(0.01, invert=True)` followed by
`sea.points[:, 2] = 0`, which forces every sea elevation to 0.  Each
output sample is the grid index pair with its (possibly zeroed)
elevation. -/
def plot_dem_in_pyvista (data : List (List ℚ)) :
    List ((Nat × Nat) × ℚ) × List ((Nat × Nat) × ℚ) :=
  let pts := enumGrid data
  let land := pts.filter (fun p => thresholdKeep false (1/100) p.2)
  let sea := (pts.filter (fun p => thresholdKeep true (1/100) p.2)).map (fun p => (p.1, (0 : ℚ)))
  (land, sea)

/-! ## The name-keyed variant (`gui.py`, with `station_utils.py`,
`line_utils.py`)

The two `QTableWidget`s are the authoritative state; the `stations` and
`lines` dictionaries are registries rebuilt from the tables by
`refresh_stations_on_plot` / `refresh_lines_on_plot`.  A table cell is
modelled by its parsed content: a numeric cell is `Option ℚ` (`none`
when `float(text)` would raise `ValueError`), text cells are `String`.
Render actors are presentation-only and are not modelled. -/

namespace Gui

/-- A row of the station table: name text plus the parse outcomes of the
X, Y, Z cells. -/
structure StationRow where
  name : String
  x : Option ℚ
  y : Option ℚ
  z : Option ℚ
  deriving DecidableEq, Repr

/-- A registry entry of `self.stations`: `{"name": ..., "coords": ...}`. -/
structure GStation where
  name : String
  coords : ℚ × ℚ × ℚ
  deriving DecidableEq, Repr

/-- A row of the line table: line name, the comma-joined station-name
text, and the color text. -/
structure LineRow where
  name : String
  stationsText : String
  color : String
  deriving DecidableEq, Repr

/-- A registry entry of `self.lines`; the rendered spline actor is
modelled by its control-point list (`station_utils.build_line_actor`
builds the spline through exactly these points). -/
structure GLine where
  name : String
  station_ids : List String
  color : ℚ × ℚ × ℚ
  geom : List (ℚ × ℚ × ℚ)
  deriving DecidableEq, Repr

/-- `station_utils.lookup_station_coords`: for each name in order, scan
the stations dictionary in iteration order, append the coordinates of
the first entry with that name, and silently skip unmatched names. -/
def lookup_station_coords (station_names : List String)
    (stations_dict : List (Nat × GStation)) : List (ℚ × ℚ × ℚ) :=
  match station_names with
  | [] => []
  | n :: rest =>
    match stations_dict.find? (fun p => p.2.name == n) with
    | some p => p.2.coords :: lookup_station_coords rest stations_dict
    | none => lookup_station_coords rest stations_dict

/-- `[s.strip() for s in text.split(",") if s.strip()]`. -/
def splitNames (text : String) : List String :=
  ((pySplitComma text.data).map (fun t => String.mk (pyStripChars t))).filter
    (fun t => t ≠ "")

/-- `", ".join(names)`. -/
def joinNames (names : List String) : String :=
  String.intercalate ", " names

/-- The color stored by `refresh_lines_on_plot`, i.e.
`hex_to_rgb(color_item.text().strip())`.  A six-character non-hex color
text would make Python raise; such rows never arise in the modelled
scenarios and are mapped to the default color here. -/
def rgbOf (s : String) : ℚ × ℚ × ℚ :=
  match hex_to_rgb (pyStrip s) with
  | .ok c => c
  | .error _ => (0, 1, 0)

/-- Loop body of `refresh_stations_on_plot`: rebuild the stations
registry from the table rows, assigning ids from a counter that starts
at 1 and advances only past rows whose four cells are present and whose
X, Y, Z texts parse as floats. -/
def refreshStationsAux (ctr : Nat) : List StationRow → List (Nat × GStation)
  | [] => []
  | r :: rest =>
    match r.x, r.y, r.z with
    | some x, some y, some z =>
      (ctr, ⟨r.name, (x, y, z)⟩) :: refreshStationsAux (ctr + 1) rest
    | _, _, _ => refreshStationsAux ctr rest

/-- `gui.TrainLineUI.refresh_stations_on_plot` (its effect on the
`self.stations` registry). -/
def refresh_stations_on_plot (rows : List StationRow) : List (Nat × GStation) :=
  refreshStationsAux 1 rows

/-- Whether `refresh_lines_on_plot` skips a line-table row: blank name
or blank station text, or fewer than 2 resolvable station coordinates. -/
def rowSkipped (stations : List (Nat × GStation)) (r : LineRow) : Bool :=
  pyStrip r.name == "" || pyStrip r.stationsText == "" ||
    decide ((lookup_station_coords (splitNames (pyStrip r.stationsText)) stations).length < 2)

/-- Loop body of `refresh_lines_on_plot`: rebuild the lines registry
from the line-table rows, assigning ids from a counter starting at 1;
rows with a blank name, blank station text, or fewer than 2 resolvable
coordinates are skipped without advancing the counter. -/
def refreshLinesAux (stations : List (Nat × GStation)) (ctr : Nat) :
    List LineRow → List (Nat × GLine)
  | [] => []
  | r :: rest =>
    if rowSkipped stations r then refreshLinesAux stations ctr rest
    else
      let st_names := splitNames (pyStrip r.stationsText)
      (ctr, ⟨pyStrip r.name, st_names, rgbOf r.color,
        lookup_station_coords st_names stations⟩) ::
        refreshLinesAux stations (ctr + 1) rest

/-- `gui.TrainLineUI.refresh_lines_on_plot` (its effect on the
`self.lines` registry). -/
def refresh_lines_on_plot (rows : List LineRow)
    (stations : List (Nat × GStation)) : List (Nat × GLine) :=
  refreshLinesAux stations 1 rows

/-- The mutable state of `gui.TrainLineUI`: the two tables, the two
derived registries, and the id counters. -/
structure GState where
  station_rows : List StationRow
  line_rows : List LineRow
  stations : List (Nat × GStation)
  lines : List (Nat × GLine)
  next_station_id : Nat
  next_line_id : Nat
  deriving DecidableEq, Repr

/-- The state after `gui.TrainLineUI.__init__` (empty tables and
registries, both counters at 1). -/
def initState : GState := ⟨[], [], [], [], 1, 1⟩

/-- `gui.TrainLineUI.clear_all`: empty both tables and both registries
and reset both counters to 1. -/
def clear_all (_s : GState) : GState := ⟨[], [], [], [], 1, 1⟩

/-- The data returned by `LineEditorDialog.get_line_data` on an accepted
dialog: the stripped name text, the selected station names in list
order, and the chosen color. -/
structure DialogResult where
  name : String
  station_ids : List String
  color : ℚ × ℚ × ℚ
  deriving DecidableEq, Repr

/-- The line-table row that `gui.TrainLineUI.add_line` appends for an
accepted dialog. -/
def rowOfDialog (d : DialogResult) : LineRow :=
  ⟨d.name, joinNames d.station_ids, rgb_to_hex d.color⟩

/-- `gui.TrainLineUI.add_line`: rejected with a warning when fewer than
2 stations are in the registry; otherwise an accepted dialog appends a
row to the line table and refreshes the lines registry.  (A cancelled
dialog leaves the state unchanged and is not modelled.) -/
def add_line (s : GState) (d : DialogResult) : GState :=
  if s.stations.length < 2 then s
  else
    let rows := s.line_rows ++ [rowOfDialog d]
    { s with line_rows := rows, lines := refresh_lines_on_plot rows s.stations }

end Gui

/-! ## The id-keyed variant (`mountain.py`)

Here the `stations` and `train_lines` dictionaries are the authoritative
state (the tables mirror them).  Dictionaries are insertion-ordered
association lists; spline actors are modelled by their control-point
lists. -/

namespace Mountain

/-- Coordinates of a station, `[x, y, z]`. -/
abbrev Coords : Type := ℚ × ℚ × ℚ

/-- An entry of `self.train_lines`:
`{'station_ids': ..., 'actor': ..., 'color': ...}`, the spline actor
modelled by its control points. -/
structure Line where
  station_ids : List Nat
  color : ℚ × ℚ × ℚ
  geom : List Coords
  deriving DecidableEq, Repr

/-- The mutable state of `mountain.TrainLineUI`: the two dictionaries
and the two id counters (the line counter starts at 0, the station
counter at 1). -/
structure State where
  stations : List (Nat × Coords)
  train_lines : List (Nat × Line)
  next_station_id : Nat
  next_line_id : Nat
  deriving DecidableEq, Repr

/-- The state after `mountain.TrainLineUI.__init__`. -/
def initState : State := ⟨[], [], 1, 0⟩

/-- The loaded DEM: the two coordinate arrays and the data grid. -/
structure Dem where
  xs : List ℚ
  ys : List ℚ
  data : List (List ℚ)

/-- `self.stations[sid]["coords"]` guarded by `sid in self.stations`. -/
def findCoords (stations : List (Nat × Coords)) (sid : Nat) : Option Coords :=
  (stations.find? (fun p => p.1 == sid)).map (fun p => p.2)

/-- `[self.stations[sid]["coords"] for sid in station_ids if sid in self.stations]`
(the point list of `update_line_actor`). -/
def resolve (stations : List (Nat × Coords)) (ids : List Nat) : List Coords :=
  ids.filterMap (findCoords stations)

/-- `mountain.TrainLineUI.point_picked` on a non-`None` pick: derive z
from the DEM, store the station under the current counter value, and
advance the counter. -/
def point_picked (d : Dem) (s : State) (x y : ℚ) : State :=
  let z := nearestLookup d.xs d.ys d.data x y
  { s with
    stations := s.stations ++ [(s.next_station_id, (x, y, z))],
    next_station_id := s.next_station_id + 1 }

/-- `mountain.TrainLineUI.add_line`: rejected when fewer than 2 stations
exist or fewer than 2 stations were selected; otherwise store a new line
under the current line counter and advance it.  The selection dialog
only offers existing station ids, so the spline points
`[self.stations[sid]["coords"] for sid in selected_ids]` coincide with
the resolvable coordinates. -/
def add_line (s : State) (selected_ids : List Nat) (color : ℚ × ℚ × ℚ) : State :=
  if s.stations.length < 2 then s
  else if selected_ids.length < 2 then s
  else
    { s with
      train_lines := s.train_lines ++
        [(s.next_line_id, ⟨selected_ids, color, resolve s.stations selected_ids⟩)],
      next_line_id := s.next_line_id + 1 }

/-- The per-line cascade step of `mountain.TrainLineUI.delete_station`,
with the stations dictionary already updated: a line not containing the
deleted id is untouched; otherwise `station_ids.remove(sid)` drops the
first occurrence of the id, the line is deleted entirely when fewer than
2 references remain, and kept with its spline recomputed by
`update_line_actor` otherwise. -/
def deleteCascade (stations : List (Nat × Coords)) (sid : Nat)
    (e : Nat × Line) : Option (Nat × Line) :=
  if sid ∈ e.2.station_ids then
    if (e.2.station_ids.erase sid).length < 2 then none
    else
      some (e.1,
        { station_ids := e.2.station_ids.erase sid
          color := e.2.color
          geom := resolve stations (e.2.station_ids.erase sid) })
  else some e

/-- `mountain.TrainLineUI.delete_station`: remove the station from the
dictionary (`del self.stations[sid]` runs before the line loop), then
cascade over every train line. -/
def delete_station (s : State) (sid : Nat) : State :=
  let stations := s.stations.filter (fun p => p.1 ≠ sid)
  { s with
    stations := stations,
    train_lines := s.train_lines.filterMap (deleteCascade stations sid) }

/-- Python `str.isdigit` on ASCII text: nonempty and all digits. -/
def pyIsDigit (cs : List Char) : Bool :=
  !cs.isEmpty && cs.all Char.isDigit

/-- Python `int` on an all-digit string. -/
def digitsToNat (cs : List Char) : Nat :=
  cs.foldl (fun a c => 10 * a + (c.toNat - 48)) 0

/-- `[int(x.strip()) for x in text.split(",") if x.strip().isdigit()]`:
non-digit entries are filtered out, digit entries are parsed. -/
def parseIdList (text : String) : List Nat :=
  ((pySplitComma text.data).map pyStripChars).filterMap
    (fun t => if pyIsDigit t then some (digitsToNat t) else none)

/-- `update_line_actor` applied to one line: nothing happens for fewer
than 2 references, otherwise the spline is rebuilt from the coordinates
of the referenced stations that still exist. -/
def updateLineGeom (stations : List (Nat × Coords)) (l : Line) : Line :=
  if l.station_ids.length < 2 then l
  else { l with geom := resolve stations l.station_ids }

/-- `mountain.TrainLineUI.line_cell_changed` on the station-ids column:
parse the digit entries of the edited text; reject the edit (restoring
the table from the model) when fewer than 2 remain, otherwise install
the parsed list on the line and rebuild its spline.  An id absent from
`self.train_lines` raises `KeyError`, caught by the surrounding
`except`, leaving the state unchanged. -/
def line_cell_changed (s : State) (lid : Nat) (text : String) : State :=
  if (parseIdList text).length < 2 then s
  else if (s.train_lines.find? (fun p => p.1 == lid)).isSome then
    { s with
      train_lines := s.train_lines.map (fun p =>
        if p.1 == lid
        then (p.1, updateLineGeom s.stations { p.2 with station_ids := parseIdList text })
        else p) }
  else s

/-- `mountain.TrainLineUI.station_cell_changed` on the X or Y column,
taking the parse outcomes of the ID, X and Y cells (`none` models a
`ValueError`/failed parse, caught by the `except` with no state change):
re-derive z from the DEM, update the station's coordinates, and refresh
every line's spline (`update_all_lines`). -/
def station_cell_changed (d : Dem) (s : State)
    (sid? : Option Nat) (x? y? : Option ℚ) : State :=
  match sid?, x?, y? with
  | some sid, some x, some y =>
    let z := nearestLookup d.xs d.ys d.data x y
    let stations := s.stations.map (fun p => if p.1 == sid then (p.1, (x, y, z)) else p)
    { s with
      stations := stations,
      train_lines := s.train_lines.map (fun p => (p.1, updateLineGeom stations p.2)) }
  | _, _, _ => s

/-- The id discipline of the id-keyed registries: every station id is
below the station counter, every line id is below the line counter, and
ids are pairwise distinct within each registry. -/
def Inv (s : State) : Prop :=
  (∀ p ∈ s.stations, p.1 < s.next_station_id) ∧
  (s.stations.map Prod.fst).Nodup ∧
  (∀ p ∈ s.train_lines, p.1 < s.next_line_id) ∧
  (s.train_lines.map Prod.fst).Nodup

end Mountain

/-! ## Concrete example data -/

/-- A small loaded DEM. -/
def demEx : Mountain.Dem := ⟨[0, 100], [0, 100], [[5, 6], [7, 8]]⟩

/-- Three picked stations and one line through all three, built by the
modelled operations from the initial state. -/
def mBase : Mountain.State :=
  Mountain.add_line
    (Mountain.point_picked demEx
      (Mountain.point_picked demEx
        (Mountain.point_picked demEx Mountain.initState 0 0) 100 0) 0 100)
    [1, 2, 3] (1, 0, 0)

/-- An id-keyed state with three stations at literal coordinates and
one line through all three. -/
def mW : Mountain.State :=
  ⟨[(1, (0, 0, 0)), (2, (1, 0, 0)), (3, (2, 0, 0))],
   [(0, ⟨[1, 2, 3], (1, 0, 0), [(0, 0, 0), (1, 0, 0), (2, 0, 0)]⟩)], 4, 1⟩

/-- A station-table row with valid cells named `A`. -/
def rowA : Gui.StationRow := ⟨"A", some 1, some 2, some 3⟩

/-- A station-table row with valid cells named `B`. -/
def rowB : Gui.StationRow := ⟨"B", some 4, some 5, some 6⟩

/-- A station table holding two valid rows. -/
def gRows : List Gui.StationRow := [⟨"A", some 0, some 0, some 0⟩, ⟨"B", some 1, some 1, some 0⟩]

/-- A `gui` state with two stations, no lines, and counters as after two
picks. -/
def gStateEx : Gui.GState :=
  ⟨gRows, [], Gui.refresh_stations_on_plot gRows, [], 3, 1⟩

/-- An accepted line dialog selecting a single station. -/
def dialogEx : Gui.DialogResult := ⟨"L1", ["A"], (1, 0, 0)⟩

/-- A stations registry used to exercise the name lookup. -/
def dictEx : List (Nat × Gui.GStation) :=
  [(1, ⟨"A", (0, 0, 0)⟩), (2, ⟨"B", (1, 1, 0)⟩), (3, ⟨"A", (9, 9, 9)⟩)]

/-! ## The nearest-sample lookup (C1) -/

theorem argminAbs_singleton (x v : ℚ) : argminAbs x [v] = 0 := rfl

theorem argminAbs_cons (x v : ℚ) (rest : List ℚ) (h : rest ≠ []) :
    argminAbs x (v :: rest) =
      if absDist x v ≤ absDist x (rest.getD (argminAbs x rest) 0) then 0
      else argminAbs x rest + 1 := by
  match rest, h with
  | (w :: t), _ => rfl

theorem argminAbs_spec (x : ℚ) (xs : List ℚ) (hne : xs ≠ []) :
    argminAbs x xs < xs.length ∧
    (∀ k, k < xs.length →
      absDist x (xs.getD (argminAbs x xs) 0) ≤ absDist x (xs.getD k 0)) ∧
    (∀ k, k < argminAbs x xs →
      absDist x (xs.getD (argminAbs x xs) 0) < absDist x (xs.getD k 0)) := by
  induction xs with
  | nil => exact absurd rfl hne
  | cons v rest ih =>
    by_cases hr : rest = []
    · subst hr
      refine ⟨by rw [argminAbs_singleton]; exact Nat.succ_pos _, ?_, ?_⟩
      · intro k hk
        have hk0 : k = 0 := by
          rw [show ([v] : List ℚ).length = 1 from rfl] at hk
          omega
        subst hk0
        rw [argminAbs_singleton]
      · intro k hk
        rw [argminAbs_singleton] at hk
        exact absurd hk (Nat.not_lt_zero k)
    · obtain ⟨ih1, ih2, ih3⟩ := ih hr
      by_cases hc : absDist x v ≤ absDist x (rest.getD (argminAbs x rest) 0)
      · have ha : argminAbs x (v :: rest) = 0 := by
          rw [argminAbs_cons x v rest hr, if_pos hc]
        rw [ha]
        refine ⟨Nat.succ_pos _, ?_, by intro k hk; exact absurd hk (Nat.not_lt_zero k)⟩
        intro k hk
        match k with
        | 0 => simp
        | (k' + 1) =>
          have h2 := ih2 k' (by simpa using hk)
          calc absDist x ((v :: rest).getD 0 0) = absDist x v := by simp
            _ ≤ absDist x (rest.getD (argminAbs x rest) 0) := hc
            _ ≤ absDist x (rest.getD k' 0) := h2
            _ = absDist x ((v :: rest).getD (k' + 1) 0) := by simp
      · have hlt : absDist x (rest.getD (argminAbs x rest) 0) < absDist x v :=
          lt_of_not_le hc
        have ha : argminAbs x (v :: rest) = argminAbs x rest + 1 := by
          rw [argminAbs_cons x v rest hr, if_neg hc]
        rw [ha]
        refine ⟨by simpa using Nat.succ_lt_succ ih1, ?_, ?_⟩
        · intro k hk
          match k with
          | 0 => simpa using le_of_lt hlt
          | (k' + 1) => simpa using ih2 k' (by simpa using hk)
        · intro k hk
          match k with
          | 0 => simpa using hlt
          | (k' + 1) => simpa using ih3 k' (by simpa using hk)

/-- Claim C1: for every query point, `get_elevation` returns the grid
value at the index pair `(i, j)` where `i` minimizes `|x_coords[i] - x|`
and `j` independently minimizes `|y_coords[j] - y|`, and at equal
distance the lower index wins. -/
theorem get_elevation_nearest (dem : List (List ℚ)) (xs ys : List ℚ) (x y : ℚ)
    (hx : xs ≠ []) (hy : ys ≠ []) :
    ∃ i j, i < xs.length ∧ j < ys.length ∧
      get_elevation (some dem) xs ys x y = gridAt dem i j ∧
      (∀ k, k < xs.length → |xs.getD i 0 - x| ≤ |xs.getD k 0 - x|) ∧
      (∀ k, k < ys.length → |ys.getD j 0 - y| ≤ |ys.getD k 0 - y|) ∧
      (∀ k, k < xs.length → |xs.getD k 0 - x| = |xs.getD i 0 - x| → i ≤ k) ∧
      (∀ k, k < ys.length → |ys.getD k 0 - y| = |ys.getD j 0 - y| → j ≤ k) := by
  obtain ⟨hx1, hx2, hx3⟩ := argminAbs_spec x xs hx
  obtain ⟨hy1, hy2, hy3⟩ := argminAbs_spec y ys hy
  refine ⟨argminAbs x xs, argminAbs y ys, hx1, hy1, rfl, ?_, ?_, ?_, ?_⟩
  · simpa [absDist] using hx2
  · simpa [absDist] using hy2
  · intro k hk heq
    by_contra hcon
    have hklt : k < argminAbs x xs := by omega
    have := hx3 k hklt
    simp only [absDist] at this
    rw [heq] at this
    exact lt_irrefl _ this
  · intro k hk heq
    by_contra hcon
    have hklt : k < argminAbs y ys := by omega
    have := hy3 k hklt
    simp only [absDist] at this
    rw [heq] at this
    exact lt_irrefl _ this

/-- Witness for C1 at an exact tie (`x = 5` between samples 0 and 10):
the lower index is selected. -/
theorem get_elevation_nearest_witness :
    (([0, 10] : List ℚ) ≠ []) ∧ (([5] : List ℚ) ≠ []) ∧
    (∃ i j, i < ([0, 10] : List ℚ).length ∧ j < ([5] : List ℚ).length ∧
      get_elevation (some [[1], [2]]) [0, 10] [5] 5 0 = gridAt [[1], [2]] i j ∧
      (∀ k, k < ([0, 10] : List ℚ).length →
        |([0, 10] : List ℚ).getD i 0 - 5| ≤ |([0, 10] : List ℚ).getD k 0 - 5|) ∧
      (∀ k, k < ([5] : List ℚ).length →
        |([5] : List ℚ).getD j 0 - 0| ≤ |([5] : List ℚ).getD k 0 - 0|) ∧
      (∀ k, k < ([0, 10] : List ℚ).length →
        |([0, 10] : List ℚ).getD k 0 - 5| = |([0, 10] : List ℚ).getD i 0 - 5| → i ≤ k) ∧
      (∀ k, k < ([5] : List ℚ).length →
        |([5] : List ℚ).getD k 0 - 0| = |([5] : List ℚ).getD j 0 - 0| → j ≤ k)) :=
  ⟨by decide, by decide, get_elevation_nearest [[1], [2]] [0, 10] [5] 5 0 (by decide) (by decide)⟩

/-! ## Land/sea partition (C4) -/

/-- Claim C4 is refuted at a grid holding exactly the threshold value
0.01: the VTK-style threshold keeps scalars greater than *or equal to*
the value, so the sample stays in the land partition with its elevation
and the sea partition is empty, while the claim places every sample at
or below 0.01 in the sea partition with elevation 0. -/
theorem partition_boundary_counterexample :
    ((0, 0), (1/100 : ℚ)) ∈ enumGrid [[(1/100 : ℚ)]] ∧
    ((1/100 : ℚ) ≤ 1/100) ∧
    (plot_dem_in_pyvista [[(1/100 : ℚ)]]).2 = [] ∧
    (plot_dem_in_pyvista [[(1/100 : ℚ)]]).1 = [((0, 0), (1/100 : ℚ))] := by
  have he : enumGrid [[(1/100 : ℚ)]] = [((0, 0), (1/100 : ℚ))] := rfl
  refine ⟨by rw [he]; exact List.mem_singleton.mpr rfl, le_refl _, ?_, ?_⟩
  · norm_num [plot_dem_in_pyvista, he, thresholdKeep, List.filter_cons]
  · norm_num [plot_dem_in_pyvista, he, thresholdKeep, List.filter_cons]

/-- Claim C4 amended: every sample with elevation greater than or equal
to the 0.01 threshold lands in the land partition with its elevation
preserved, every sample strictly below it lands in the sea partition
with elevation forced to exactly 0, land elevations are all at least
0.01, and sea elevations are all exactly 0. -/
theorem partition_spec (data : List (List ℚ)) (i j : Nat) (v : ℚ)
    (hmem : ((i, j), v) ∈ enumGrid data) :
    (1/100 ≤ v → ((i, j), v) ∈ (plot_dem_in_pyvista data).1) ∧
    (v < 1/100 → ((i, j), (0 : ℚ)) ∈ (plot_dem_in_pyvista data).2) ∧
    (∀ p ∈ (plot_dem_in_pyvista data).1, (1 : ℚ)/100 ≤ p.2) ∧
    (∀ p ∈ (plot_dem_in_pyvista data).2, p.2 = 0) := by
  refine ⟨?_, ?_, ?_, ?_⟩
  · intro hv
    simp only [plot_dem_in_pyvista, List.mem_filter]
    exact ⟨hmem, by simpa [thresholdKeep] using hv⟩
  · intro hv
    simp only [plot_dem_in_pyvista, List.mem_map]
    exact ⟨((i, j), v), List.mem_filter.mpr ⟨hmem, by simpa [thresholdKeep] using hv⟩, rfl⟩
  · intro p hp
    simp only [plot_dem_in_pyvista, List.mem_filter] at hp
    simpa [thresholdKeep] using hp.2
  · intro p hp
    simp only [plot_dem_in_pyvista, List.mem_map] at hp
    obtain ⟨q, _, rfl⟩ := hp
    rfl

/-- Witness for the amended C4 on a two-sample grid: the sample at 0.02
is in the land partition with its value kept. -/
theorem partition_spec_witness :
    ((0, 0), (1/50 : ℚ)) ∈ enumGrid [[(1/50 : ℚ)], [(0 : ℚ)]] ∧
    ((0, 0), (1/50 : ℚ)) ∈ (plot_dem_in_pyvista [[(1/50 : ℚ)], [(0 : ℚ)]]).1 := by
  have he : enumGrid [[(1/50 : ℚ)], [(0 : ℚ)]] = [((0, 0), (1/50 : ℚ)), ((1, 0), (0 : ℚ))] := rfl
  have hmem : ((0, 0), (1/50 : ℚ)) ∈ enumGrid [[(1/50 : ℚ)], [(0 : ℚ)]] := by
    rw [he]; exact List.mem_cons_self _ _
  exact ⟨hmem, (partition_spec [[(1/50 : ℚ)], [(0 : ℚ)]] 0 0 (1/50) hmem).1 (by norm_num)⟩

/-! ## Reset (C6) -/

/-- Claim C6: in every state, `clear_all` empties the station and line
tables and both registries and resets both id counters to 1, which is
also their value in the freshly constructed state. -/
theorem clear_all_resets (s : Gui.GState) :
    Gui.clear_all s = Gui.initState ∧
    (Gui.clear_all s).stations = [] ∧
    (Gui.clear_all s).lines = [] ∧
    (Gui.clear_all s).station_rows = [] ∧
    (Gui.clear_all s).line_rows = [] ∧
    (Gui.clear_all s).next_station_id = 1 ∧
    (Gui.clear_all s).next_line_id = 1 ∧
    Gui.initState.next_station_id = 1 ∧
    Gui.initState.next_line_id = 1 :=
  ⟨rfl, rfl, rfl, rfl, rfl, rfl, rfl, rfl, rfl⟩

/-! ## Color round-trip (C7, C10) -/

theorem hexVal_hexDigitChar : ∀ d, d < 16 → hexVal (hexDigitChar d) = some d := by decide

theorem hexDigitChar_ne_hash : ∀ d, d < 16 → hexDigitChar d ≠ '#' := by decide

theorem hexDigitChar_upper :
    ∀ d, d < 16 →
      ((hexDigitChar d).isDigit || ('A' ≤ hexDigitChar d && hexDigitChar d ≤ 'F')) = true := by
  decide

theorem parseHex2_toHex2 (n : Nat) (h : n < 256) :
    parseHex2 (hexDigitChar (n / 16)) (hexDigitChar (n % 16)) = some n := by
  have h1 : n / 16 < 16 := by omega
  have h2 : n % 16 < 16 := Nat.mod_lt _ (by omega)
  simp [parseHex2, hexVal_hexDigitChar _ h1, hexVal_hexDigitChar _ h2, Nat.div_add_mod]

/-- Per-channel effect of `int(q*255)` for `q` in `[0, 1]`: a value in
`0..255` whose rescaling differs from `q` by at most `1/255`. -/
theorem channel_trunc_spec (q : ℚ) (h0 : 0 ≤ q) (h1 : q ≤ 1) :
    (pyIntTrunc (q * 255)).toNat ≤ 255 ∧
    |(((pyIntTrunc (q * 255)).toNat : ℚ)) / 255 - q| ≤ 1 / 255 := by
  have hnn : (0 : ℚ) ≤ q * 255 := by positivity
  have htr : pyIntTrunc (q * 255) = ⌊q * 255⌋ := if_neg (not_lt.mpr hnn)
  have hfl : (0 : ℤ) ≤ ⌊q * 255⌋ := Int.floor_nonneg.mpr hnn
  have hub : ⌊q * 255⌋ ≤ 255 := by
    have hle : (q * 255 : ℚ) ≤ 255 := by nlinarith
    calc ⌊q * 255⌋ ≤ ⌊(255 : ℚ)⌋ := Int.floor_le_floor hle
      _ = 255 := by norm_num
  constructor
  · rw [htr]
    exact Int.toNat_le.mpr (by exact_mod_cast hub)
  · rw [htr]
    have hcast : ((⌊q * 255⌋.toNat : ℚ)) = ((⌊q * 255⌋ : ℤ) : ℚ) := by
      exact_mod_cast congrArg (fun z : ℤ => (z : ℚ)) (Int.toNat_of_nonneg hfl)
    rw [hcast]
    have hlow : ((⌊q * 255⌋ : ℤ) : ℚ) ≤ q * 255 := Int.floor_le _
    have hhi : q * 255 < ((⌊q * 255⌋ : ℤ) : ℚ) + 1 := Int.lt_floor_add_one _
    rw [abs_le]
    constructor <;> nlinarith

/-- Parsing a freshly printed `#RRGGBB` string recovers the three
channel bytes. -/
theorem hex_to_rgb_hexes (n1 n2 n3 : Nat) (h1 : n1 < 256) (h2 : n2 < 256) (h3 : n3 < 256) :
    hex_to_rgb (String.mk ('#' :: (toHex2 n1 ++ toHex2 n2 ++ toHex2 n3))) =
      .ok ((n1 : ℚ) / 255, (n2 : ℚ) / 255, (n3 : ℚ) / 255) := by
  have hne : hexDigitChar (n1 / 16) ≠ '#' := hexDigitChar_ne_hash _ (by omega)
  have hd : lstripHash (String.mk ('#' :: (toHex2 n1 ++ toHex2 n2 ++ toHex2 n3))).data
      = [hexDigitChar (n1 / 16), hexDigitChar (n1 % 16), hexDigitChar (n2 / 16),
         hexDigitChar (n2 % 16), hexDigitChar (n3 / 16), hexDigitChar (n3 % 16)] := by
    simp [lstripHash, toHex2, List.dropWhile, hne]
  unfold hex_to_rgb
  rw [hd]
  simp [parseHex2_toHex2 n1 h1, parseHex2_toHex2 n2 h2, parseHex2_toHex2 n3 h3]

/-- Claim C7: for every normalized RGB triple, converting to the hex
string form and back yields an equal triple within a per-channel
tolerance of 1/255, and the serialized form is an uppercase `#RRGGBB`
string. -/
theorem color_roundtrip (r g b : ℚ)
    (hr0 : 0 ≤ r) (hr1 : r ≤ 1) (hg0 : 0 ≤ g) (hg1 : g ≤ 1)
    (hb0 : 0 ≤ b) (hb1 : b ≤ 1) :
    (∃ c : ℚ × ℚ × ℚ, hex_to_rgb (rgb_to_hex (r, g, b)) = .ok c ∧
      |c.1 - r| ≤ 1/255 ∧ |c.2.1 - g| ≤ 1/255 ∧ |c.2.2 - b| ≤ 1/255) ∧
    isUpperHexColor (rgb_to_hex (r, g, b)) = true := by
  obtain ⟨hrb, hrt⟩ := channel_trunc_spec r hr0 hr1
  obtain ⟨hgb, hgt⟩ := channel_trunc_spec g hg0 hg1
  obtain ⟨hbb, hbt⟩ := channel_trunc_spec b hb0 hb1
  constructor
  · refine ⟨(((pyIntTrunc (r * 255)).toNat : ℚ) / 255,
      ((pyIntTrunc (g * 255)).toNat : ℚ) / 255,
      ((pyIntTrunc (b * 255)).toNat : ℚ) / 255), ?_, hrt, hgt, hbt⟩
    exact hex_to_rgb_hexes ((pyIntTrunc (r * 255)).toNat) ((pyIntTrunc (g * 255)).toNat)
      ((pyIntTrunc (b * 255)).toNat) (by omega) (by omega) (by omega)
  · have u1 := hexDigitChar_upper ((pyIntTrunc (r * 255)).toNat / 16) (by omega)
    have u2 := hexDigitChar_upper ((pyIntTrunc (r * 255)).toNat % 16) (by omega)
    have u3 := hexDigitChar_upper ((pyIntTrunc (g * 255)).toNat / 16) (by omega)
    have u4 := hexDigitChar_upper ((pyIntTrunc (g * 255)).toNat % 16) (by omega)
    have u5 := hexDigitChar_upper ((pyIntTrunc (b * 255)).toNat / 16) (by omega)
    have u6 := hexDigitChar_upper ((pyIntTrunc (b * 255)).toNat % 16) (by omega)
    simp [isUpperHexColor, rgb_to_hex, toHex2, u1, u2, u3, u4, u5, u6]

/-- Witness for C7 at the triple `(1/2, 0, 1)`. -/
theorem color_roundtrip_witness :
    ((0 : ℚ) ≤ 1/2 ∧ (1/2 : ℚ) ≤ 1 ∧ (0 : ℚ) ≤ 0 ∧ (0 : ℚ) ≤ 1 ∧
      (0 : ℚ) ≤ 1 ∧ (1 : ℚ) ≤ 1) ∧
    ((∃ c : ℚ × ℚ × ℚ, hex_to_rgb (rgb_to_hex (1/2, 0, 1)) = .ok c ∧
      |c.1 - 1/2| ≤ 1/255 ∧ |c.2.1 - 0| ≤ 1/255 ∧ |c.2.2 - 1| ≤ 1/255) ∧
    isUpperHexColor (rgb_to_hex (1/2, 0, 1)) = true) :=
  ⟨⟨by norm_num, by norm_num, le_refl 0, by norm_num, by norm_num, le_refl 1⟩,
    color_roundtrip (1/2) 0 1 (by norm_num) (by norm_num) (le_refl 0) (by norm_num)
      (by norm_num) (le_refl 1)⟩

/-- Claim C10: an input whose length after stripping leading `'#'` is
not 6 yields the default color `[0, 1, 0]` without raising, and a
six-hex-digit input yields the three channels divided by 255. -/
theorem hex_to_rgb_lenient (s : String) :
    ((lstripHash s.data).length ≠ 6 → hex_to_rgb s = .ok (0, 1, 0)) ∧
    (∀ a b c d e f, lstripHash s.data = [a, b, c, d, e, f] →
      ∀ va vb vc vd ve vf : Nat, hexVal a = some va → hexVal b = some vb →
        hexVal c = some vc → hexVal d = some vd →
        hexVal e = some ve → hexVal f = some vf →
        hex_to_rgb s = .ok (((16 * va + vb : ℕ) : ℚ) / 255,
          ((16 * vc + vd : ℕ) : ℚ) / 255, ((16 * ve + vf : ℕ) : ℚ) / 255)) := by
  constructor
  · intro hlen
    unfold hex_to_rgb
    split
    · rename_i a b c d e f heq
      exact absurd (by rw [heq]; rfl) hlen
    · rfl
  · intro a b c d e f heq va vb vc vd ve vf ha hb hc hd he hf
    unfold hex_to_rgb
    rw [heq]
    simp [parseHex2, ha, hb, hc, hd, he, hf]

/-- Witness for C10: a short input falls back to green, and `#0A0B0C`
parses to its three channel bytes over 255. -/
theorem hex_to_rgb_lenient_witness :
    ((lstripHash ("12" : String).data).length ≠ 6) ∧
    hex_to_rgb "12" = .ok (0, 1, 0) ∧
    (lstripHash ("#0A0B0C" : String).data = ['0', 'A', '0', 'B', '0', 'C']) ∧
    hex_to_rgb "#0A0B0C" = .ok (((16 * 0 + 10 : ℕ) : ℚ) / 255,
      ((16 * 0 + 11 : ℕ) : ℚ) / 255, ((16 * 0 + 12 : ℕ) : ℚ) / 255) :=
  ⟨by decide, (hex_to_rgb_lenient "12").1 (by decide), by decide,
    (hex_to_rgb_lenient "#0A0B0C").2 '0' 'A' '0' 'B' '0' 'C' (by decide)
      0 10 0 11 0 12 (by decide) (by decide) (by decide) (by decide) (by decide) (by decide)⟩

/-! ## Station-name lookup (C9) -/

theorem filterMap_length_eq_count {α β : Type} (f : α → Option β) (l : List α) :
    (l.filterMap f).length = (l.filter (fun a => (f a).isSome)).length := by
  induction l with
  | nil => rfl
  | cons a t ih =>
    cases h : f a <;> simp [List.filterMap_cons, List.filter_cons, h, ih]

theorem find?_first {α : Type} (p : α → Bool) (l : List α) (a : α)
    (h : l.find? p = some a) :
    p a = true ∧ ∃ pre post, l = pre ++ a :: post ∧ ∀ b ∈ pre, p b = false := by
  induction l with
  | nil => simp [List.find?] at h
  | cons x t ih =>
    by_cases hx : p x = true
    · rw [List.find?_cons_of_pos _ hx] at h
      obtain rfl : x = a := by simpa using h
      exact ⟨hx, [], t, rfl, by simp⟩
    · rw [List.find?_cons_of_neg _ (by simpa using hx)] at h
      obtain ⟨hpa, pre, post, hsplit, hpre⟩ := ih h
      refine ⟨hpa, x :: pre, post, by rw [hsplit]; rfl, ?_⟩
      intro b hb
      rcases List.mem_cons.mp hb with rfl | hb'
      · simpa using hx
      · exact hpre b hb'

/-- Claim C9: `lookup_station_coords` returns, in input order, the
coordinates of the first registry entry (in iteration order) matching
each name, silently skipping unmatched names, so its length is the
number of resolvable names. -/
theorem lookup_station_coords_spec (names : List String) (dict : List (Nat × Gui.GStation)) :
    Gui.lookup_station_coords names dict =
      names.filterMap (fun n =>
        (dict.find? (fun p => p.2.name == n)).map (fun p => p.2.coords)) ∧
    (Gui.lookup_station_coords names dict).length =
      (names.filter (fun n => (dict.find? (fun p => p.2.name == n)).isSome)).length ∧
    (∀ n p, dict.find? (fun q => q.2.name == n) = some p →
      p.2.name = n ∧ ∃ pre post, dict = pre ++ p :: post ∧
        ∀ q ∈ pre, q.2.name ≠ n) := by
  have heq : Gui.lookup_station_coords names dict =
      names.filterMap (fun n =>
        (dict.find? (fun p => p.2.name == n)).map (fun p => p.2.coords)) := by
    induction names with
    | nil => rfl
    | cons n rest ih =>
      cases h : dict.find? (fun p => p.2.name == n) with
      | none => simp [Gui.lookup_station_coords, h, ih, List.filterMap_cons]
      | some p => simp [Gui.lookup_station_coords, h, ih, List.filterMap_cons]
  refine ⟨heq, ?_, ?_⟩
  · rw [heq, filterMap_length_eq_count]
    simp only [Option.isSome_map']
  · intro n p h
    obtain ⟨hpa, pre, post, hsplit, hpre⟩ := find?_first _ _ _ h
    refine ⟨by simpa using hpa, pre, post, hsplit, ?_⟩
    intro q hq
    simpa using hpre q hq

/-- Witness for C9: the unresolvable middle name is skipped and the
duplicate name `A` resolves to the first matching registry entry. -/
theorem lookup_station_coords_spec_witness :
    Gui.lookup_station_coords ["A", "X", "B"] dictEx = [(0, 0, 0), (1, 1, 0)] := by
  rw [(lookup_station_coords_spec ["A", "X", "B"] dictEx).1]
  decide

/-! ## Registry id discipline (C3) -/

theorem refreshStationsAux_le (rows : List Gui.StationRow) (ctr : Nat) :
    ∀ q ∈ Gui.refreshStationsAux ctr rows, ctr ≤ q.1 := by
  induction rows generalizing ctr with
  | nil => intro q hq; simp [Gui.refreshStationsAux] at hq
  | cons r rest ih =>
    intro q hq
    cases hx : r.x with
    | none => exact ih ctr q (by simpa [Gui.refreshStationsAux, hx] using hq)
    | some xv =>
      cases hy : r.y with
      | none => exact ih ctr q (by simpa [Gui.refreshStationsAux, hx, hy] using hq)
      | some yv =>
        cases hz : r.z with
        | none => exact ih ctr q (by simpa [Gui.refreshStationsAux, hx, hy, hz] using hq)
        | some zv =>
          rw [show Gui.refreshStationsAux ctr (r :: rest)
              = (ctr, ⟨r.name, (xv, yv, zv)⟩) :: Gui.refreshStationsAux (ctr + 1) rest
            from by simp [Gui.refreshStationsAux, hx, hy, hz]] at hq
          rcases List.mem_cons.mp hq with rfl | hq'
          · exact le_refl _
          · exact le_of_lt (Nat.lt_of_lt_of_le (Nat.lt_succ_self ctr) (ih (ctr + 1) q hq'))

theorem refreshStationsAux_nodup (rows : List Gui.StationRow) (ctr : Nat) :
    ((Gui.refreshStationsAux ctr rows).map Prod.fst).Nodup := by
  induction rows generalizing ctr with
  | nil => simp [Gui.refreshStationsAux]
  | cons r rest ih =>
    cases hx : r.x with
    | none => simpa [Gui.refreshStationsAux, hx] using ih ctr
    | some xv =>
      cases hy : r.y with
      | none => simpa [Gui.refreshStationsAux, hx, hy] using ih ctr
      | some yv =>
        cases hz : r.z with
        | none => simpa [Gui.refreshStationsAux, hx, hy, hz] using ih ctr
        | some zv =>
          rw [show Gui.refreshStationsAux ctr (r :: rest)
              = (ctr, ⟨r.name, (xv, yv, zv)⟩) :: Gui.refreshStationsAux (ctr + 1) rest
            from by simp [Gui.refreshStationsAux, hx, hy, hz]]
          rw [List.map_cons, List.nodup_cons]
          refine ⟨?_, ih (ctr + 1)⟩
          intro hmem
          obtain ⟨q, hq, hq1⟩ := List.mem_map.mp hmem
          have := refreshStationsAux_le rest (ctr + 1) q hq
          omega

theorem refreshLinesAux_le (rows : List Gui.LineRow)
    (st : List (Nat × Gui.GStation)) (ctr : Nat) :
    ∀ q ∈ Gui.refreshLinesAux st ctr rows, ctr ≤ q.1 := by
  induction rows generalizing ctr with
  | nil => intro q hq; simp [Gui.refreshLinesAux] at hq
  | cons r rest ih =>
    intro q hq
    by_cases hs : Gui.rowSkipped st r
    · exact ih ctr q (by simpa [Gui.refreshLinesAux, hs] using hq)
    · rw [show Gui.refreshLinesAux st ctr (r :: rest)
          = (ctr, ⟨pyStrip r.name, Gui.splitNames (pyStrip r.stationsText), Gui.rgbOf r.color,
              Gui.lookup_station_coords (Gui.splitNames (pyStrip r.stationsText)) st⟩) ::
            Gui.refreshLinesAux st (ctr + 1) rest
        from by simp [Gui.refreshLinesAux, hs]] at hq
      rcases List.mem_cons.mp hq with rfl | hq'
      · exact le_refl _
      · exact le_of_lt (Nat.lt_of_lt_of_le (Nat.lt_succ_self ctr) (ih (ctr + 1) q hq'))

theorem refreshLinesAux_nodup (rows : List Gui.LineRow)
    (st : List (Nat × Gui.GStation)) (ctr : Nat) :
    ((Gui.refreshLinesAux st ctr rows).map Prod.fst).Nodup := by
  induction rows generalizing ctr with
  | nil => simp [Gui.refreshLinesAux]
  | cons r rest ih =>
    by_cases hs : Gui.rowSkipped st r
    · simpa [Gui.refreshLinesAux, hs] using ih ctr
    · rw [show Gui.refreshLinesAux st ctr (r :: rest)
          = (ctr, ⟨pyStrip r.name, Gui.splitNames (pyStrip r.stationsText), Gui.rgbOf r.color,
              Gui.lookup_station_coords (Gui.splitNames (pyStrip r.stationsText)) st⟩) ::
            Gui.refreshLinesAux st (ctr + 1) rest
        from by simp [Gui.refreshLinesAux, hs]]
      rw [List.map_cons, List.nodup_cons]
      refine ⟨?_, ih (ctr + 1)⟩
      intro hmem
      obtain ⟨q, hq, hq1⟩ := List.mem_map.mp hmem
      have := refreshLinesAux_le rest st (ctr + 1) q hq
      omega

theorem map_fst_filterMap_sublist {β γ : Type} (g : Nat × β → Option (Nat × γ))
    (hg : ∀ e a, g e = some a → a.1 = e.1) (l : List (Nat × β)) :
    ((l.filterMap g).map Prod.fst).Sublist (l.map Prod.fst) := by
  induction l with
  | nil => simp
  | cons e t ih =>
    cases h : g e with
    | none =>
      rw [List.filterMap_cons_none h, List.map_cons]
      exact ih.cons e.1
    | some a =>
      rw [List.filterMap_cons_some h, List.map_cons, List.map_cons, hg e a h]
      exact ih.cons₂ e.1

theorem nodup_append_counter (l : List Nat) (a : Nat) (h : ∀ b ∈ l, b < a)
    (hl : l.Nodup) : (l ++ [a]).Nodup := by
  rw [List.nodup_append]
  refine ⟨hl, List.nodup_singleton a, ?_⟩
  intro b hb hb'
  rw [List.mem_singleton] at hb'
  subst hb'
  exact lt_irrefl b (h b hb)

theorem map_fst_map_eq {β : Type} (f : Nat × β → Nat × β) (hf : ∀ e, (f e).1 = e.1)
    (l : List (Nat × β)) : (l.map f).map Prod.fst = l.map Prod.fst := by
  rw [List.map_map]
  exact List.map_congr_left (fun e _ => hf e)

theorem map_fst_map_snd {β γ : Type} (f : Nat × β → γ) (l : List (Nat × β)) :
    (l.map (fun p => (p.1, f p))).map Prod.fst = l.map Prod.fst := by
  rw [List.map_map]
  rfl

theorem deleteCascade_fst (stations : List (Nat × Mountain.Coords)) (sid : Nat)
    (e a : Nat × Mountain.Line) (h : Mountain.deleteCascade stations sid e = some a) :
    a.1 = e.1 := by
  unfold Mountain.deleteCascade at h
  split at h
  · split at h
    · exact absurd h (by simp)
    · cases h; rfl
  · cases h; rfl

/-- Claim C3 counterexample: in `gui.py` the station registry is
rebuilt from the table with positional ids starting at 1 on every
refresh, so after deleting the first row the id 1 — previously the id of
station `A` — is immediately reassigned to the different station `B`:
ids are reused after a deletion. -/
theorem station_id_reuse_counterexample :
    Gui.refresh_stations_on_plot [rowA, rowB]
      = [(1, ⟨"A", (1, 2, 3)⟩), (2, ⟨"B", (4, 5, 6)⟩)] ∧
    Gui.refresh_stations_on_plot [rowB] = [(1, ⟨"B", (4, 5, 6)⟩)] ∧
    ("A" : String) ≠ "B" :=
  ⟨rfl, rfl, by decide⟩

/-- Claim C3 amended: within each registry no two stations and no two
lines ever share an id, in both variants.  In `mountain.py` the ids are
assigned by monotonically increasing counters and are never reused:
every modelled operation preserves the id discipline, and a pick stores
the fresh counter value, which never collides with an existing id.  In
`gui.py` the registry ids are positional counters rebuilt from the
tables on every refresh (so deletion does reuse ids, per the
counterexample). -/
theorem ids_unique_spec :
    (∀ rows : List Gui.StationRow,
      ((Gui.refresh_stations_on_plot rows).map Prod.fst).Nodup) ∧
    (∀ rows stations, ((Gui.refresh_lines_on_plot rows stations).map Prod.fst).Nodup) ∧
    Mountain.Inv Mountain.initState ∧
    (∀ s : Mountain.State, Mountain.Inv s →
      (∀ d x y, Mountain.Inv (Mountain.point_picked d s x y) ∧
        (Mountain.point_picked d s x y).stations.map Prod.fst
          = s.stations.map Prod.fst ++ [s.next_station_id] ∧
        s.next_station_id ∉ s.stations.map Prod.fst ∧
        s.next_station_id < (Mountain.point_picked d s x y).next_station_id) ∧
      (∀ sel c, Mountain.Inv (Mountain.add_line s sel c)) ∧
      (∀ sid, Mountain.Inv (Mountain.delete_station s sid)) ∧
      (∀ lid text, Mountain.Inv (Mountain.line_cell_changed s lid text)) ∧
      (∀ d sid? x? y?, Mountain.Inv (Mountain.station_cell_changed d s sid? x? y?))) := by
  refine ⟨fun rows => refreshStationsAux_nodup rows 1,
    fun rows stations => refreshLinesAux_nodup rows stations 1,
    ⟨by simp [Mountain.initState], by simp [Mountain.initState],
      by simp [Mountain.initState], by simp [Mountain.initState]⟩, ?_⟩
  rintro s ⟨hsb, hsn, hlb, hln⟩
  refine ⟨?_, ?_, ?_, ?_, ?_⟩
  · intro d x y
    have hfresh : s.next_station_id ∉ s.stations.map Prod.fst := by
      intro hmem
      obtain ⟨q, hq, hq1⟩ := List.mem_map.mp hmem
      have := hsb q hq
      omega
    refine ⟨⟨?_, ?_, hlb, hln⟩, by simp [Mountain.point_picked], hfresh, ?_⟩
    · intro p hp
      simp only [Mountain.point_picked] at hp
      rcases List.mem_append.mp hp with hp' | hp'
      · exact Nat.lt_succ_of_lt (hsb p hp')
      · rw [List.mem_singleton] at hp'
        subst hp'
        exact Nat.lt_succ_self _
    · show ((s.stations ++ [(s.next_station_id, _)]).map Prod.fst).Nodup
      rw [List.map_append]
      exact nodup_append_counter _ _
        (fun b hb => by
          obtain ⟨q, hq, hq1⟩ := List.mem_map.mp hb
          exact hq1 ▸ hsb q hq) hsn
    · simp [Mountain.point_picked]
  · intro sel c
    unfold Mountain.add_line
    split
    · exact ⟨hsb, hsn, hlb, hln⟩
    · split
      · exact ⟨hsb, hsn, hlb, hln⟩
      · refine ⟨hsb, hsn, ?_, ?_⟩
        · intro p hp
          rcases List.mem_append.mp hp with hp' | hp'
          · exact Nat.lt_succ_of_lt (hlb p hp')
          · rw [List.mem_singleton] at hp'
            subst hp'
            exact Nat.lt_succ_self _
        · show ((s.train_lines ++ [(s.next_line_id, _)]).map Prod.fst).Nodup
          rw [List.map_append]
          exact nodup_append_counter _ _
            (fun b hb => by
              obtain ⟨q, hq, hq1⟩ := List.mem_map.mp hb
              exact hq1 ▸ hlb q hq) hln
  · intro sid
    refine ⟨?_, ?_, ?_, ?_⟩
    · intro p hp
      exact hsb p (List.mem_of_mem_filter hp)
    · exact ((List.filter_sublist _).map Prod.fst).nodup hsn
    · intro p hp
      obtain ⟨e, he, hce⟩ := List.mem_filterMap.mp hp
      have := deleteCascade_fst _ sid e p hce
      exact this ▸ hlb e he
    · exact (map_fst_filterMap_sublist _ (deleteCascade_fst _ sid) _).nodup hln
  · intro lid text
    unfold Mountain.line_cell_changed
    split
    · exact ⟨hsb, hsn, hlb, hln⟩
    · split
      · have hfst : ∀ e : Nat × Mountain.Line,
            ((fun p : Nat × Mountain.Line =>
              if p.1 == lid
              then (p.1, Mountain.updateLineGeom s.stations
                { p.2 with station_ids := Mountain.parseIdList text })
              else p) e).1 = e.1 := by
          intro e
          by_cases he : e.1 == lid <;> simp [he]
        refine ⟨hsb, hsn, ?_, ?_⟩
        · intro p hp
          obtain ⟨e, he, rfl⟩ := List.mem_map.mp hp
          rw [hfst e]
          exact hlb e he
        · show ((s.train_lines.map _).map Prod.fst).Nodup
          rw [map_fst_map_eq _ hfst]
          exact hln
      · exact ⟨hsb, hsn, hlb, hln⟩
  · intro d sid? x? y?
    cases sid? with
    | none => exact ⟨hsb, hsn, hlb, hln⟩
    | some sid =>
      cases x? with
      | none => exact ⟨hsb, hsn, hlb, hln⟩
      | some xv =>
        cases y? with
        | none => exact ⟨hsb, hsn, hlb, hln⟩
        | some yv =>
          have hfst : ∀ e : Nat × Mountain.Coords,
              ((fun p : Nat × Mountain.Coords =>
                if p.1 == sid
                then (p.1, (xv, yv, nearestLookup d.xs d.ys d.data xv yv))
                else p) e).1 = e.1 := by
            intro e
            by_cases he : e.1 == sid <;> simp [he]
          refine ⟨?_, ?_, ?_, ?_⟩
          · intro p hp
            obtain ⟨e, he, rfl⟩ := List.mem_map.mp hp
            rw [hfst e]
            exact hsb e he
          · show ((s.stations.map _).map Prod.fst).Nodup
            rw [map_fst_map_eq _ hfst]
            exact hsn
          · intro p hp
            obtain ⟨e, he, rfl⟩ := List.mem_map.mp hp
            exact hlb e he
          · show ((s.train_lines.map _).map Prod.fst).Nodup
            rw [map_fst_map_snd]
            exact hln

/-- Witness for the amended C3: the initial id-keyed state satisfies the
id discipline and a pick preserves it. -/
theorem ids_unique_spec_witness :
    Mountain.Inv Mountain.initState ∧
    Mountain.Inv (Mountain.point_picked demEx Mountain.initState 0 0) := by
  have h0 : Mountain.Inv Mountain.initState := by
    refine ⟨?_, ?_, ?_, ?_⟩ <;> simp [Mountain.Inv, Mountain.initState]
  exact ⟨h0, ((ids_unique_spec.2.2.2 Mountain.initState h0).1 demEx 0 0).1⟩

/-! ## Line creation validation (C5) -/

theorem refreshLinesAux_append_skipped (st : List (Nat × Gui.GStation)) (r : Gui.LineRow)
    (h : Gui.rowSkipped st r = true) (rows : List Gui.LineRow) (ctr : Nat) :
    Gui.refreshLinesAux st ctr (rows ++ [r]) = Gui.refreshLinesAux st ctr rows := by
  induction rows generalizing ctr with
  | nil => simp [Gui.refreshLinesAux, h]
  | cons q rest ih =>
    by_cases hq : Gui.rowSkipped st q
    · simp only [List.cons_append]
      simp [Gui.refreshLinesAux, hq, ih]
    · simp only [List.cons_append]
      simp [Gui.refreshLinesAux, hq, ih]

/-- Claim C5 counterexample: in `gui.py` with two stations present, an
accepted dialog carrying a single station reference is not rejected and
raises no validation warning: the row is appended to the line table (the
attempted mutation is retained, and will be persisted by a save), and
only the derived lines registry omits it. -/
theorem add_line_underfilled_counterexample :
    dialogEx.station_ids.length < 2 ∧
    2 ≤ gStateEx.stations.length ∧
    (Gui.add_line gStateEx dialogEx).line_rows
      = gStateEx.line_rows ++ [Gui.rowOfDialog dialogEx] ∧
    (Gui.add_line gStateEx dialogEx).line_rows ≠ gStateEx.line_rows ∧
    (Gui.add_line gStateEx dialogEx).lines = gStateEx.lines := by
  have hlen : ¬(gStateEx.stations.length < 2) := by decide
  exact ⟨by decide, by decide, by simp [Gui.add_line, hlen], by decide, by decide⟩

/-- Claim C5 amended: in `mountain.py`, creating a line with fewer than
2 selected references, or with fewer than 2 stations present, is
rejected with a warning and the store is unchanged.  In `gui.py`
creation is rejected only when fewer than 2 stations exist; an accepted
dialog whose row resolves to fewer than 2 station coordinates is still
appended to the line table, while the derived lines registry is left
unchanged. -/
theorem add_line_validation_spec :
    (∀ (s : Mountain.State) sel c, sel.length < 2 → Mountain.add_line s sel c = s) ∧
    (∀ (s : Mountain.State) sel c, s.stations.length < 2 → Mountain.add_line s sel c = s) ∧
    (∀ (s : Gui.GState) d, s.stations.length < 2 → Gui.add_line s d = s) ∧
    (∀ (s : Gui.GState) d, 2 ≤ s.stations.length →
      Gui.rowSkipped s.stations (Gui.rowOfDialog d) = true →
      (Gui.add_line s d).line_rows = s.line_rows ++ [Gui.rowOfDialog d] ∧
      (Gui.add_line s d).lines = Gui.refresh_lines_on_plot s.line_rows s.stations) := by
  refine ⟨?_, ?_, ?_, ?_⟩
  · intro s sel c hsel
    unfold Mountain.add_line
    by_cases h1 : s.stations.length < 2
    · rw [if_pos h1]
    · rw [if_neg h1, if_pos hsel]
  · intro s sel c hst
    unfold Mountain.add_line
    rw [if_pos hst]
  · intro s d hst
    unfold Gui.add_line
    rw [if_pos hst]
  · intro s d hst hskip
    have hn : ¬(s.stations.length < 2) := by omega
    constructor
    · simp [Gui.add_line, hn]
    · simp only [Gui.add_line, if_neg hn]
      show Gui.refresh_lines_on_plot (s.line_rows ++ [Gui.rowOfDialog d]) s.stations = _
      unfold Gui.refresh_lines_on_plot
      exact refreshLinesAux_append_skipped s.stations (Gui.rowOfDialog d) hskip s.line_rows 1

/-- Witness for the amended C5: a single-reference creation is a no-op
in the id-keyed variant, and in the name-keyed variant it appends a
table row while the registry stays as refreshed from the old rows. -/
theorem add_line_validation_spec_witness :
    (([5] : List Nat).length < 2 ∧
      Mountain.add_line Mountain.initState [5] (0, 0, 0) = Mountain.initState) ∧
    (2 ≤ gStateEx.stations.length ∧
      Gui.rowSkipped gStateEx.stations (Gui.rowOfDialog dialogEx) = true ∧
      ((Gui.add_line gStateEx dialogEx).line_rows
          = gStateEx.line_rows ++ [Gui.rowOfDialog dialogEx] ∧
        (Gui.add_line gStateEx dialogEx).lines
          = Gui.refresh_lines_on_plot gStateEx.line_rows gStateEx.stations)) :=
  ⟨⟨by decide, add_line_validation_spec.1 Mountain.initState [5] (0, 0, 0) (by decide)⟩,
   ⟨by decide, by decide,
     add_line_validation_spec.2.2.2 gStateEx dialogEx (by decide) (by decide)⟩⟩

/-! ## Station-deletion cascade (C2) -/

theorem mem_fst_unique {β : Type} (l : List (Nat × β)) (h : (l.map Prod.fst).Nodup)
    (a : Nat) (b c : β) (hb : (a, b) ∈ l) (hc : (a, c) ∈ l) : b = c := by
  induction l with
  | nil => simp at hb
  | cons e t ih =>
    rw [List.map_cons, List.nodup_cons] at h
    rcases List.mem_cons.mp hb with hb1 | hb'
    · rcases List.mem_cons.mp hc with hc1 | hc'
      · have hbc : (a, b) = (a, c) := hb1.trans hc1.symm
        exact congrArg Prod.snd hbc
      · exfalso
        apply h.1
        rw [← hb1]
        exact List.mem_map.mpr ⟨(a, c), hc', rfl⟩
    · rcases List.mem_cons.mp hc with hc1 | hc'
      · exfalso
        apply h.1
        rw [← hc1]
        exact List.mem_map.mpr ⟨(a, b), hb', rfl⟩
      · exact ih h.2 hb' hc'

/-- Claim C2 counterexample: from the initial state, pick three
stations, create the line through 1–2–3, edit its id column to
`1, 1, 2, 3` (the edit handler accepts the duplicate), then delete
station 1.  `station_ids.remove(sid)` drops only the first occurrence,
so the surviving line still references the deleted station's id 1 —
refuting that the deleted station's reference is removed from every
line's reference list (and a second edit could likewise leave a
retained line with fewer than 2 resolvable references). -/
theorem delete_station_reference_counterexample :
    Mountain.parseIdList "1, 1, 2, 3" = [1, 1, 2, 3] ∧
    ((Mountain.delete_station (Mountain.line_cell_changed mBase 0 "1, 1, 2, 3") 1).stations.map
      Prod.fst) = [2, 3] ∧
    ((Mountain.delete_station (Mountain.line_cell_changed mBase 0 "1, 1, 2, 3") 1).train_lines.map
      (fun p => (p.1, p.2.station_ids))) = [(0, [1, 2, 3])] :=
  ⟨by decide, by decide, by decide⟩

/-- Claim C2 amended: deleting a station removes its entry from the
stations dictionary; every line whose reference list contains the
deleted id has the first occurrence of that id removed; a modified line
left with fewer than 2 references (resolvable or not) is deleted
entirely; any other modified line is retained with its spline rebuilt
from the current coordinates of its remaining resolvable stations; and
lines not referencing the id are untouched. -/
theorem deleteCascade_pair (st : List (Nat × Mountain.Coords)) (sid lid : Nat)
    (l : Mountain.Line) :
    Mountain.deleteCascade st sid (lid, l) =
      if sid ∈ l.station_ids then
        if (l.station_ids.erase sid).length < 2 then none
        else some (lid, (⟨l.station_ids.erase sid, l.color,
          Mountain.resolve st (l.station_ids.erase sid)⟩ : Mountain.Line))
      else some (lid, l) := rfl

theorem delete_station_cascade_spec (s : Mountain.State) (sid : Nat)
    (hnd : (s.train_lines.map Prod.fst).Nodup) (lid : Nat) (l : Mountain.Line)
    (hmem : (lid, l) ∈ s.train_lines) :
    (Mountain.delete_station s sid).stations = s.stations.filter (fun p => p.1 ≠ sid) ∧
    (sid ∉ l.station_ids → (lid, l) ∈ (Mountain.delete_station s sid).train_lines) ∧
    (sid ∈ l.station_ids → (l.station_ids.erase sid).length < 2 →
      ∀ l', (lid, l') ∉ (Mountain.delete_station s sid).train_lines) ∧
    (sid ∈ l.station_ids → 2 ≤ (l.station_ids.erase sid).length →
      (lid, (⟨l.station_ids.erase sid, l.color,
        Mountain.resolve (s.stations.filter (fun p => p.1 ≠ sid))
          (l.station_ids.erase sid)⟩ : Mountain.Line))
        ∈ (Mountain.delete_station s sid).train_lines) := by
  refine ⟨rfl, ?_, ?_, ?_⟩
  · intro hs
    show (lid, l) ∈ s.train_lines.filterMap
      (Mountain.deleteCascade (s.stations.filter (fun p => p.1 ≠ sid)) sid)
    apply List.mem_filterMap.mpr
    refine ⟨(lid, l), hmem, ?_⟩
    rw [deleteCascade_pair, if_neg hs]
  · intro hs hlen l' hmem'
    have hmem'' : (lid, l') ∈ s.train_lines.filterMap
        (Mountain.deleteCascade (s.stations.filter (fun p => p.1 ≠ sid)) sid) := hmem'
    obtain ⟨e, he, hce⟩ := List.mem_filterMap.mp hmem''
    obtain ⟨e1, e2⟩ := e
    have he1 : e1 = lid := by
      have := deleteCascade_fst _ sid (e1, e2) (lid, l') hce
      exact this.symm
    subst he1
    have he2 : e2 = l := mem_fst_unique s.train_lines hnd e1 e2 l he hmem
    subst he2
    rw [deleteCascade_pair, if_pos hs, if_pos hlen] at hce
    exact Option.noConfusion hce
  · intro hs hlen
    show _ ∈ s.train_lines.filterMap
      (Mountain.deleteCascade (s.stations.filter (fun p => p.1 ≠ sid)) sid)
    apply List.mem_filterMap.mpr
    refine ⟨(lid, l), hmem, ?_⟩
    rw [deleteCascade_pair, if_pos hs, if_neg (by omega)]

/-- Witness for the amended C2: deleting station 1 from a three-station
line keeps the line, drops the reference, and recomputes the spline
from the two remaining stations. -/
theorem delete_station_cascade_spec_witness :
    (mW.train_lines.map Prod.fst).Nodup ∧
    ((0 : Nat), (⟨[1, 2, 3], (1, 0, 0),
      [(0, 0, 0), (1, 0, 0), (2, 0, 0)]⟩ : Mountain.Line)) ∈ mW.train_lines ∧
    1 ∈ ([1, 2, 3] : List Nat) ∧ 2 ≤ (([1, 2, 3] : List Nat).erase 1).length ∧
    ((0 : Nat), (⟨([1, 2, 3] : List Nat).erase 1, (1, 0, 0),
      Mountain.resolve (mW.stations.filter (fun p => p.1 ≠ 1))
        (([1, 2, 3] : List Nat).erase 1)⟩ : Mountain.Line))
      ∈ (Mountain.delete_station mW 1).train_lines := by
  refine ⟨by decide, by decide, by decide, by decide, ?_⟩
  exact (delete_station_cascade_spec mW 1 (by decide) 0
    ⟨[1, 2, 3], (1, 0, 0), [(0, 0, 0), (1, 0, 0), (2, 0, 0)]⟩ (by decide)).2.2.2
    (by decide) (by decide)

/-! ## Malformed cell edits (C8) -/

theorem updateLineGeom_station_ids (st : List (Nat × Mountain.Coords)) (l : Mountain.Line) :
    (Mountain.updateLineGeom st l).station_ids = l.station_ids := by
  unfold Mountain.updateLineGeom
  split <;> rfl

/-- Claim C8 counterexample: the line-table edit `1, x, 2` on a line
referencing `[1, 2, 3]` is not a silent no-op: the non-digit entry is
filtered out and the remaining digit entries replace the line's
reference list. -/
theorem line_edit_filter_counterexample :
    Mountain.parseIdList "1, x, 2" = [1, 2] ∧
    mBase.train_lines.map (fun p => (p.1, p.2.station_ids)) = [(0, [1, 2, 3])] ∧
    (Mountain.line_cell_changed mBase 0 "1, x, 2").train_lines.map
      (fun p => (p.1, p.2.station_ids)) = [(0, [1, 2])] :=
  ⟨by decide, by decide, by decide⟩

/-- Claim C8 amended: a station cell edit whose id, x or y text fails to
parse is a silent no-op on the registries; a line-list edit keeps only
its digit entries — if fewer than 2 remain the edit is rejected with the
store unchanged, otherwise the surviving digit entries replace the
edited line's reference list (so such an edit does change the model). -/
theorem malformed_edit_spec :
    (∀ (d : Mountain.Dem) (s : Mountain.State) sid? x? y?,
      sid? = none ∨ x? = none ∨ y? = none →
      Mountain.station_cell_changed d s sid? x? y? = s) ∧
    (∀ (s : Mountain.State) lid text, (Mountain.parseIdList text).length < 2 →
      Mountain.line_cell_changed s lid text = s) ∧
    (∀ (s : Mountain.State) lid text, 2 ≤ (Mountain.parseIdList text).length →
      (s.train_lines.find? (fun p => p.1 == lid)).isSome = true →
      (Mountain.line_cell_changed s lid text).train_lines.map
        (fun p => (p.1, p.2.station_ids)) =
      s.train_lines.map (fun p =>
        (p.1, if p.1 = lid then Mountain.parseIdList text else p.2.station_ids))) := by
  refine ⟨?_, ?_, ?_⟩
  · rintro d s sid? x? y? (rfl | rfl | rfl)
    · rfl
    · cases sid? <;> rfl
    · cases sid? <;> cases x? <;> rfl
  · intro s lid text h
    unfold Mountain.line_cell_changed
    rw [if_pos h]
  · intro s lid text h hfind
    unfold Mountain.line_cell_changed
    rw [if_neg (by omega), if_pos hfind]
    show (s.train_lines.map _).map _ = _
    rw [List.map_map]
    apply List.map_congr_left
    intro e _
    by_cases helid : e.1 = lid
    · simp [show (e.1 == lid) = true by simpa using helid, updateLineGeom_station_ids, helid]
    · simp [show (e.1 == lid) = false by simpa using helid, helid]

/-- Witness for the amended C8: an unparsable x cell is a no-op, a list
edit with one digit entry is rejected, and a list edit with two digit
entries replaces the reference list. -/
theorem malformed_edit_spec_witness :
    ((some 1 : Option Nat) = none ∨ (none : Option ℚ) = none ∨ (some 2 : Option ℚ) = none) ∧
    Mountain.station_cell_changed demEx mW (some 1) none (some 2) = mW ∧
    (Mountain.parseIdList "1, x").length < 2 ∧
    Mountain.line_cell_changed mW 0 "1, x" = mW ∧
    2 ≤ (Mountain.parseIdList "7, 8").length ∧
    (mW.train_lines.find? (fun p => p.1 == 0)).isSome = true ∧
    (Mountain.line_cell_changed mW 0 "7, 8").train_lines.map
        (fun p => (p.1, p.2.station_ids)) =
      mW.train_lines.map (fun p =>
        (p.1, if p.1 = 0 then Mountain.parseIdList "7, 8" else p.2.station_ids)) :=
  ⟨Or.inr (Or.inl rfl),
   malformed_edit_spec.1 demEx mW (some 1) none (some 2) (Or.inr (Or.inl rfl)),
   by decide,
   malformed_edit_spec.2.1 mW 0 "1, x" (by decide),
   by decide, by decide,
   malformed_edit_spec.2.2 mW 0 "7, 8" (by decide) (by decide)⟩

end MetroGame
